import Mathlib

/-!
# Verification of the js-noise Noise handshake engine

A shallow embedding of the Waku `js-noise` library: the Noise `CipherState`,
`SymmetricState` and `HandshakeState` objects (`src/noise.ts`, `src/handshake.ts`),
the `NoisePublicKey` and `PayloadV2` wire formats (`publickey.ts`, `payload.ts`),
the `MessageNametagBuffer`, and the QR serialization (`src/qr.ts`).

Conventions of the embedding:
* JS `Uint8Array` values are `List Nat`, each entry a byte (`< 256` where the source
  guarantees it).
* external cryptographic primitives (`@stablelib` ChaCha20-Poly1305, SHA-256, HKDF and
  X25519) are passed to the embedded operations as explicit function arguments; the Noise
  state machine never inspects their output, so every theorem about the state machine is
  proved for all instantiations.  Where a claim is about the concrete derivation (the
  nametag KDF) an executable SHA-256 / HMAC / HKDF is defined in this file.
* JS methods that mutate `this` become functions returning the updated value; a method
  that can `throw` returns an `Except` paired with the state at the moment the exception
  escapes (JS exceptions do not roll back earlier field writes).
-/

namespace JsNoise

/-- Byte sequences (JS `Uint8Array` contents) as lists of naturals. -/
abbrev Bytes := List Nat

/-- The error values thrown by the library (`throw` in the TS sources). -/
inductive NoiseError where
  | nonceExhausted
  | decryptFailed
  | invalidPadding
  | undefinedState
  | staticKeyNotSet
  | messageNametagMismatch
  | handshakeTooLarge
  | protocolIdNotFound
  | invalidKeyFlag
  | invalidSerializedKey
  | rangeError
  | invalidQrString
  | handshakeNotFinished
  deriving DecidableEq, Repr

/-- Modelled from the spec: the repository's `nonce.ts` (the `Nonce` class that
`src/noise.ts` imports) is not among the provided sources.  Spec §3 gives the invariant
`value < 2^32`, the state being poisoned on reaching `2^32`; `nonceAssertOk` is the
success condition of `Nonce.assertValue`. -/
def nonceAssertOk (n : Nat) : Bool := decide (n < 2 ^ 32)

/-- Modelled from the spec: §3 wire form of the nonce — 12 bytes, the 4 low counter bytes
in little-endian order followed by 8 zero bytes (`Nonce.getBytes` of the missing
`nonce.ts`). -/
def nonceBytes (n : Nat) : Bytes :=
  (List.range 4).map (fun i => n / 256 ^ i % 256) ++ List.replicate 8 0

/-- `createEmptyKey` (src/noise.ts): the all-zero 32-byte sentinel meaning "no key". -/
def createEmptyKey : Bytes := List.replicate 32 0

/-- `isEmptyKey` (src/noise.ts): a key is empty when it equals the all-zero sentinel. -/
def isEmptyKey (k : Bytes) : Bool := decide (k = createEmptyKey)

/-- The Noise Cipher State (src/noise.ts): an encryption key `k` and a counter nonce `n`. -/
structure CipherState where
  k : Bytes
  n : Nat
  deriving DecidableEq, Repr

/-- `CipherState.hasKey` (src/noise.ts). -/
def CipherState.hasKey (cs : CipherState) : Bool := !isEmptyKey cs.k

/-- The shape of `chaCha20Poly1305Encrypt` (external `@stablelib` primitive, argument
order as in the source: plaintext, 12-byte nonce, associated data, key). -/
abbrev AeadEncrypt := Bytes → Bytes → Bytes → Bytes → Bytes

/-- The shape of `chaCha20Poly1305Decrypt`; `none` models the `null` returned on an
AEAD authentication failure. -/
abbrev AeadDecrypt := Bytes → Bytes → Bytes → Bytes → Option Bytes

/-- `CipherState.encryptWithAd` (src/noise.ts).  The source asserts the nonce, and with a
key set seals the plaintext, increments the nonce and re-asserts it; with no key set it
returns the plaintext unchanged.  The returned `CipherState` is the state after the call,
also when the method throws (the post-increment `assertValue` throws with the nonce
already advanced). -/
def CipherState.encryptWithAd (enc : AeadEncrypt) (cs : CipherState) (ad plaintext : Bytes) :
    Except NoiseError Bytes × CipherState :=
  if !nonceAssertOk cs.n then (.error .nonceExhausted, cs)
  else if cs.hasKey then
    let ciphertext := enc plaintext (nonceBytes cs.n) ad cs.k
    let cs' : CipherState := { cs with n := cs.n + 1 }
    if !nonceAssertOk cs'.n then (.error .nonceExhausted, cs')
    else (.ok ciphertext, cs')
  else (.ok plaintext, cs)

/-- `CipherState.decryptWithAd` (src/noise.ts).  With a key set, a `null` from the AEAD
open throws `decryptWithAd failed` with the nonce untouched; on success the nonce is
incremented and re-asserted.  With no key set the ciphertext is returned unchanged. -/
def CipherState.decryptWithAd (dec : AeadDecrypt) (cs : CipherState) (ad ciphertext : Bytes) :
    Except NoiseError Bytes × CipherState :=
  if !nonceAssertOk cs.n then (.error .nonceExhausted, cs)
  else if cs.hasKey then
    match dec ciphertext (nonceBytes cs.n) ad cs.k with
    | none => (.error .decryptFailed, cs)
    | some plaintext =>
      let cs' : CipherState := { cs with n := cs.n + 1 }
      if !nonceAssertOk cs'.n then (.error .nonceExhausted, cs')
      else (.ok plaintext, cs')
  else (.ok ciphertext, cs)

/-- C5: with a key set and a valid nonce `n`, a successful `encryptWithAd` or
`decryptWithAd` leaves the nonce at `n + 1`, and a `decryptWithAd` whose AEAD
authentication fails raises an error and leaves the nonce at `n`. -/
theorem c5_nonce_monotonicity (enc : AeadEncrypt) (dec : AeadDecrypt) (cs : CipherState)
    (ad pt ct : Bytes) (hkey : cs.hasKey = true) (hn : nonceAssertOk cs.n = true) :
    ((cs.encryptWithAd enc ad pt).1.isOk = true →
        (cs.encryptWithAd enc ad pt).2.n = cs.n + 1) ∧
    ((cs.decryptWithAd dec ad ct).1.isOk = true →
        (cs.decryptWithAd dec ad ct).2.n = cs.n + 1) ∧
    (dec ct (nonceBytes cs.n) ad cs.k = none →
        cs.decryptWithAd dec ad ct = (.error .decryptFailed, cs)) := by
  refine ⟨?_, ?_, ?_⟩
  · unfold CipherState.encryptWithAd
    by_cases h : nonceAssertOk (cs.n + 1) <;>
      simp [hn, hkey, h, Except.isOk, Except.toBool]
  · unfold CipherState.decryptWithAd
    cases hdec : dec ct (nonceBytes cs.n) ad cs.k <;>
      by_cases h : nonceAssertOk (cs.n + 1) <;>
      simp [hn, hkey, hdec, h, Except.isOk, Except.toBool]
  · intro hdec
    unfold CipherState.decryptWithAd
    simp [hn, hkey, hdec]

/-- A concrete keyed cipher state used by the C5 witness. -/
def csWitness : CipherState := ⟨List.replicate 32 1, 5⟩

/-- A concrete AEAD sealing function used by witnesses. -/
def encWitness : AeadEncrypt := fun pt _ _ _ => pt ++ [0]

/-- A concrete always-failing AEAD opening function used by witnesses. -/
def decFailWitness : AeadDecrypt := fun _ _ _ _ => none

/-- Witness for C5 at a concrete cipher state, AEAD pair and inputs. -/
theorem c5_nonce_monotonicity_witness :
    CipherState.hasKey csWitness = true ∧ nonceAssertOk csWitness.n = true ∧
    (((csWitness.encryptWithAd encWitness [7] [9]).1.isOk = true →
        (csWitness.encryptWithAd encWitness [7] [9]).2.n = csWitness.n + 1) ∧
     ((csWitness.decryptWithAd decFailWitness [7] [9]).1.isOk = true →
        (csWitness.decryptWithAd decFailWitness [7] [9]).2.n = csWitness.n + 1) ∧
     (decFailWitness [9] (nonceBytes csWitness.n) [7] csWitness.k = none →
        csWitness.decryptWithAd decFailWitness [7] [9]
          = (.error .decryptFailed, csWitness))) :=
  ⟨by decide, by decide,
    c5_nonce_monotonicity encWitness decFailWitness csWitness [7] [9] [9]
      (by decide) (by decide)⟩

/-- C6: with the all-zero empty key and a valid nonce, `encryptWithAd` returns the
plaintext unchanged, `decryptWithAd` returns the ciphertext unchanged, and neither
advances the nonce. -/
theorem c6_empty_key_identity (enc : AeadEncrypt) (dec : AeadDecrypt) (cs : CipherState)
    (ad pt ct : Bytes) (hkey : isEmptyKey cs.k = true) (hn : nonceAssertOk cs.n = true) :
    cs.encryptWithAd enc ad pt = (.ok pt, cs) ∧
    cs.decryptWithAd dec ad ct = (.ok ct, cs) := by
  constructor
  · unfold CipherState.encryptWithAd
    simp [hn, CipherState.hasKey, hkey]
  · unfold CipherState.decryptWithAd
    simp [hn, CipherState.hasKey, hkey]

/-- Witness for C6 at a concrete empty-key cipher state. -/
theorem c6_empty_key_identity_witness :
    isEmptyKey (createEmptyKey : Bytes) = true ∧ nonceAssertOk 3 = true ∧
    (CipherState.encryptWithAd (fun pt _ _ _ => pt ++ [0]) ⟨createEmptyKey, 3⟩ [1] [2]
        = (.ok [2], ⟨createEmptyKey, 3⟩) ∧
     CipherState.decryptWithAd (fun _ _ _ _ => none) ⟨createEmptyKey, 3⟩ [1] [4]
        = (.ok [4], ⟨createEmptyKey, 3⟩)) :=
  ⟨by decide, by decide,
    c6_empty_key_identity (fun pt _ _ _ => pt ++ [0]) (fun _ _ _ _ => none)
      ⟨createEmptyKey, 3⟩ [1] [2] [4] (by decide) (by decide)⟩

/-- C10: both `encryptWithAd` and `decryptWithAd` assert the nonce before looking at the
key, so with the empty key and a nonce past the cap they raise the nonce-exhaustion error
instead of acting as the identity. -/
theorem c10_nonce_checked_before_key (enc : AeadEncrypt) (dec : AeadDecrypt)
    (cs : CipherState) (ad pt ct : Bytes) (_hkey : isEmptyKey cs.k = true)
    (hn : nonceAssertOk cs.n = false) :
    cs.encryptWithAd enc ad pt = (.error .nonceExhausted, cs) ∧
    cs.decryptWithAd dec ad ct = (.error .nonceExhausted, cs) := by
  constructor
  · unfold CipherState.encryptWithAd
    simp [hn]
  · unfold CipherState.decryptWithAd
    simp [hn]

/-- Witness for C10 with the empty key and the first nonce value past the cap. -/
theorem c10_nonce_checked_before_key_witness :
    isEmptyKey (createEmptyKey : Bytes) = true ∧ nonceAssertOk (2 ^ 32) = false ∧
    (CipherState.encryptWithAd (fun pt _ _ _ => pt) ⟨createEmptyKey, 2 ^ 32⟩ [] [5]
        = (.error .nonceExhausted, ⟨createEmptyKey, 2 ^ 32⟩) ∧
     CipherState.decryptWithAd (fun _ _ _ _ => none) ⟨createEmptyKey, 2 ^ 32⟩ [] [6]
        = (.error .nonceExhausted, ⟨createEmptyKey, 2 ^ 32⟩)) :=
  ⟨by decide, by decide,
    c10_nonce_checked_before_key (fun pt _ _ _ => pt) (fun _ _ _ _ => none)
      ⟨createEmptyKey, 2 ^ 32⟩ [] [5] [6] (by decide) (by decide)⟩

/-! ## NoisePublicKey (`publickey.ts`) -/

/-- A Noise public key (`publickey.ts`): an encryption flag and the key bytes (the X
coordinate when unencrypted, its encryption plus the 16-byte tag when encrypted). -/
structure NoisePublicKey where
  flag : Nat
  pk : Bytes
  deriving DecidableEq, Repr

/-- `NoisePublicKey.serialize` (publickey.ts): the key is serialized as `flag || pk`,
where the flag byte is the JS truthiness projection `this.flag ? 1 : 0`. -/
def NoisePublicKey.serialize (npk : NoisePublicKey) : Bytes :=
  (if npk.flag ≠ 0 then 1 else 0) :: npk.pk

/-- `NoisePublicKey.deserialize` (publickey.ts): rejects an empty input and any flag byte
outside `{0, 1}`. -/
def NoisePublicKey.deserialize (serializedPK : Bytes) : Except NoiseError NoisePublicKey :=
  match serializedPK with
  | [] => .error .invalidSerializedKey
  | flag :: pk =>
    if flag = 0 ∨ flag = 1 then .ok ⟨flag, pk⟩
    else .error .invalidKeyFlag

/-- C9: `serialize` always emits a first byte in `{0, 1}` — any nonzero flag is written as
byte `1` and flag `0` as byte `0` — so a key constructed with a flag outside `{0, 1}`
round-trips to flag `1`, while flags in `{0, 1}` round-trip exactly. -/
theorem c9_flag_normalization (k : NoisePublicKey) :
    ((k.serialize.head? = some 0 ∧ k.flag = 0) ∨ (k.serialize.head? = some 1 ∧ k.flag ≠ 0)) ∧
    (k.flag = 0 ∨ k.flag = 1 → NoisePublicKey.deserialize k.serialize = .ok k) ∧
    (k.flag ≠ 0 → NoisePublicKey.deserialize k.serialize = .ok ⟨1, k.pk⟩) := by
  refine ⟨?_, ?_, ?_⟩
  · by_cases h : k.flag = 0
    · exact .inl ⟨by simp [NoisePublicKey.serialize, h], h⟩
    · exact .inr ⟨by simp [NoisePublicKey.serialize, h], h⟩
  · obtain ⟨f, pk⟩ := k
    rintro (h | h) <;> simp only at h <;> subst h <;>
      simp [NoisePublicKey.serialize, NoisePublicKey.deserialize]
  · intro h
    simp [NoisePublicKey.serialize, NoisePublicKey.deserialize, h]

/-- Witness for C9 at a key whose flag is outside `{0, 1}`. -/
theorem c9_flag_normalization_witness :
    (((NoisePublicKey.mk 7 [3]).serialize.head? = some 0 ∧ (7 : Nat) = 0) ∨
      ((NoisePublicKey.mk 7 [3]).serialize.head? = some 1 ∧ (7 : Nat) ≠ 0)) ∧
    ((7 : Nat) = 0 ∨ (7 : Nat) = 1 →
      NoisePublicKey.deserialize (NoisePublicKey.mk 7 [3]).serialize = .ok ⟨7, [3]⟩) ∧
    ((7 : Nat) ≠ 0 →
      NoisePublicKey.deserialize (NoisePublicKey.mk 7 [3]).serialize = .ok ⟨1, [3]⟩) :=
  c9_flag_normalization ⟨7, [3]⟩

/-! ## Patterns (`patterns.ts`), SymmetricState (`src/noise.ts`) and the handshake
transport-message padding (`src/handshake.ts`) -/

/-- The Noise tokens of (pre)message patterns (`patterns.ts`). -/
inductive NoiseTokens where
  | e | s | es | ee | se | ss | psk
  deriving DecidableEq, Repr

/-- The canonical direction of a (pre)message pattern (`patterns.ts`): `r` is `->`,
`l` is `<-`. -/
inductive MessageDirection where
  | r | l
  deriving DecidableEq, Repr

/-- A pre-message pattern (`patterns.ts`). -/
structure PreMessagePattern where
  direction : MessageDirection
  tokens : List NoiseTokens
  deriving DecidableEq, Repr

/-- A message pattern (`patterns.ts`). -/
structure MessagePattern where
  direction : MessageDirection
  tokens : List NoiseTokens
  deriving DecidableEq, Repr

/-- A handshake pattern (`patterns.ts`): protocol name, pre-message patterns and message
patterns. -/
structure HandshakePattern where
  name : String
  preMessagePatterns : List PreMessagePattern
  messagePatterns : List MessagePattern
  deriving DecidableEq, Repr

/-- `NoiseHandshakePatterns.WakuPairing` (patterns.ts). -/
def wakuPairingPattern : HandshakePattern :=
  { name := "Noise_WakuPairing_25519_ChaChaPoly_SHA256",
    preMessagePatterns := [⟨.l, [.e]⟩],
    messagePatterns := [⟨.r, [.e, .ee]⟩, ⟨.l, [.s, .es]⟩, ⟨.r, [.s, .se, .ss]⟩] }

/-- Supported protocol IDs for `PayloadV2` objects (`patterns.ts`,
`PayloadV2ProtocolIDs`). -/
def PayloadV2ProtocolIDs : List (String × Nat) :=
  [("", 0),
   ("Noise_K1K1_25519_ChaChaPoly_SHA256", 10),
   ("Noise_XK1_25519_ChaChaPoly_SHA256", 11),
   ("Noise_XX_25519_ChaChaPoly_SHA256", 12),
   ("Noise_XXpsk0_25519_ChaChaPoly_SHA256", 13),
   ("Noise_WakuPairing_25519_ChaChaPoly_SHA256", 14),
   ("ChaChaPoly", 30)]

/-- The shape of `hashSHA256` (external `@stablelib/sha256`). -/
abbrev HashFn := Bytes → Bytes

/-- The shape of `getHKDF` (the repository's HKDF wrapper over `@stablelib/hkdf`):
the chaining key and input key material give three derived 32-byte keys; call sites
destructure the first two or all three. -/
abbrev HkdfFn := Bytes → Bytes → Bytes × Bytes × Bytes

/-- The Noise Symmetric State (src/noise.ts): cipher state `cs`, chaining key `ck` and
handshake hash `h`. -/
structure SymmetricState where
  cs : CipherState
  ck : Bytes
  h : Bytes
  deriving DecidableEq, Repr

/-- `SymmetricState.mixHash` (src/noise.ts): hashes `h || data` into `h`. -/
def SymmetricState.mixHash (hash : HashFn) (ss : SymmetricState) (data : Bytes) :
    SymmetricState :=
  { ss with h := hash (ss.h ++ data) }

/-- `SymmetricState.mixKey` (src/noise.ts): derives `[ck, tempK]` with HKDF and installs a
fresh cipher state keyed with `tempK`. -/
def SymmetricState.mixKey (hkdf : HkdfFn) (ss : SymmetricState) (inputKeyMaterial : Bytes) :
    SymmetricState :=
  let (ck, tempK, _) := hkdf ss.ck inputKeyMaterial
  { ss with cs := ⟨tempK, 0⟩, ck := ck }

/-- `SymmetricState.mixKeyAndHash` (src/noise.ts): derives three keys, chains the first,
mixes the second into `h` and keys a fresh cipher state with the third. -/
def SymmetricState.mixKeyAndHash (hash : HashFn) (hkdf : HkdfFn) (ss : SymmetricState)
    (inputKeyMaterial : Bytes) : SymmetricState :=
  let (tmpKey0, tmpKey1, tmpKey2) := hkdf ss.ck inputKeyMaterial
  let ss' := SymmetricState.mixHash hash { ss with ck := tmpKey0 } tmpKey1
  { ss' with cs := ⟨tmpKey2, 0⟩ }

/-- `SymmetricState.encryptAndHash` (src/noise.ts): encrypts with `ad = h || extraAd` and
mixes the ciphertext into `h`. -/
def SymmetricState.encryptAndHash (hash : HashFn) (enc : AeadEncrypt) (ss : SymmetricState)
    (plaintext extraAd : Bytes) : Except NoiseError Bytes × SymmetricState :=
  let ad := ss.h ++ extraAd
  match ss.cs.encryptWithAd enc ad plaintext with
  | (.ok ciphertext, cs') =>
    (.ok ciphertext, SymmetricState.mixHash hash { ss with cs := cs' } ciphertext)
  | (.error err, cs') => (.error err, { ss with cs := cs' })

/-- `SymmetricState.decryptAndHash` (src/noise.ts): decrypts with `ad = h || extraAd` and
mixes the ciphertext (not the plaintext) into `h`. -/
def SymmetricState.decryptAndHash (hash : HashFn) (dec : AeadDecrypt) (ss : SymmetricState)
    (ciphertext extraAd : Bytes) : Except NoiseError Bytes × SymmetricState :=
  let ad := ss.h ++ extraAd
  match ss.cs.decryptWithAd dec ad ciphertext with
  | (.ok plaintext, cs') =>
    (.ok plaintext, SymmetricState.mixHash hash { ss with cs := cs' } ciphertext)
  | (.error err, cs') => (.error err, { ss with cs := cs' })

/-- `SymmetricState.split` (src/noise.ts): two cipher states keyed by HKDF of the chaining
key with empty input key material, both with nonce 0. -/
def SymmetricState.split (hkdf : HkdfFn) (ss : SymmetricState) :
    CipherState × CipherState :=
  let (tmpKey1, tmpKey2, _) := hkdf ss.ck []
  (⟨tmpKey1, 0⟩, ⟨tmpKey2, 0⟩)

/-- `NoisePaddingBlockSize` (src/handshake.ts). -/
def NoisePaddingBlockSize : Nat := 248

/-- Modelled from the spec: `pad` of the external `pkcs7-padding` npm package (spec §4.6):
append `blockSize - len % blockSize` bytes, each equal to that count. -/
def pkcs7Pad (data : Bytes) (blockSize : Nat) : Bytes :=
  let padLen := blockSize - data.length % blockSize
  data ++ List.replicate padLen padLen

/-- Modelled from the spec: `unpad` of the external `pkcs7-padding` npm package
(spec §4.6): the last byte `N` must be in `[1, 248]`, not exceed the length, and the last
`N` bytes must all equal `N`; otherwise `InvalidPadding`. -/
def pkcs7Unpad (data : Bytes) : Except NoiseError Bytes :=
  match data.getLast? with
  | none => .error .invalidPadding
  | some padLen =>
    if padLen = 0 ∨ padLen > NoisePaddingBlockSize ∨ padLen > data.length then
      .error .invalidPadding
    else if (data.drop (data.length - padLen)).all (fun b => b = padLen) then
      .ok (data.take (data.length - padLen))
    else .error .invalidPadding

/-- An X25519 key pair (`@types/keypair`). -/
structure KeyPair where
  publicKey : Bytes
  privateKey : Bytes
  deriving DecidableEq, Repr

/-- The Noise Handshake State (src/handshake.ts). -/
structure HandshakeState where
  s : Option KeyPair
  e : Option KeyPair
  rs : Option Bytes
  re : Option Bytes
  ss : SymmetricState
  initiator : Bool
  handshakePattern : HandshakePattern
  msgPatternIdx : Nat
  psk : Bytes
  deriving DecidableEq, Repr

/-- `HandshakeState.getReadingWritingState` (src/handshake.ts): `(reading, writing)` from
the initiator flag and the message direction. -/
def getReadingWritingState : Bool → MessageDirection → Bool × Bool
  | true, .r => (false, true)
  | true, .l => (true, false)
  | false, .r => (true, false)
  | false, .l => (false, true)

/-- `HandshakeState.processMessagePatternPayload` (src/handshake.ts, lines 246–270), as
written in the source: on the reading side it calls `decryptAndHash` and then
`pkcs7.pad`; on the writing side it calls `pkcs7.unpad` and then `encryptAndHash`.
An out-of-range `msgPatternIdx` (which `stepHandshake` guards against) is modelled as the
`undefined state` error. -/
def HandshakeState.processMessagePatternPayload (hash : HashFn) (enc : AeadEncrypt)
    (dec : AeadDecrypt) (hs : HandshakeState) (transportMessage extraAd : Bytes) :
    Except NoiseError Bytes × HandshakeState :=
  match hs.handshakePattern.messagePatterns.get? hs.msgPatternIdx with
  | none => (.error .undefinedState, hs)
  | some messagePattern =>
    match getReadingWritingState hs.initiator messagePattern.direction with
    | (true, _) =>
      match SymmetricState.decryptAndHash hash dec hs.ss transportMessage extraAd with
      | (.ok payload, ss') =>
        (.ok (pkcs7Pad payload NoisePaddingBlockSize), { hs with ss := ss' })
      | (.error err, ss') => (.error err, { hs with ss := ss' })
    | (false, true) =>
      match pkcs7Unpad transportMessage with
      | .error err => (.error err, hs)
      | .ok payload =>
        match SymmetricState.encryptAndHash hash enc hs.ss payload extraAd with
        | (.ok ciphertext, ss') => (.ok ciphertext, { hs with ss := ss' })
        | (.error err, ss') => (.error err, { hs with ss := ss' })
    | (false, false) => (.error .undefinedState, hs)

/-- The claim's version of `processMessagePatternPayload`, following the spec's words
(§4.6): the writing side pads the transport message with PKCS#7 to the 248-byte block and
then applies `encryptAndHash`; the reading side applies `decryptAndHash` and then removes
the padding. -/
def HandshakeState.processMessagePatternPayloadSpec (hash : HashFn) (enc : AeadEncrypt)
    (dec : AeadDecrypt) (hs : HandshakeState) (transportMessage extraAd : Bytes) :
    Except NoiseError Bytes × HandshakeState :=
  match hs.handshakePattern.messagePatterns.get? hs.msgPatternIdx with
  | none => (.error .undefinedState, hs)
  | some messagePattern =>
    match getReadingWritingState hs.initiator messagePattern.direction with
    | (true, _) =>
      match SymmetricState.decryptAndHash hash dec hs.ss transportMessage extraAd with
      | (.ok payload, ss') =>
        match pkcs7Unpad payload with
        | .ok unpadded => (.ok unpadded, { hs with ss := ss' })
        | .error err => (.error err, { hs with ss := ss' })
      | (.error err, ss') => (.error err, { hs with ss := ss' })
    | (false, true) =>
      match SymmetricState.encryptAndHash hash enc hs.ss
          (pkcs7Pad transportMessage NoisePaddingBlockSize) extraAd with
      | (.ok ciphertext, ss') => (.ok ciphertext, { hs with ss := ss' })
      | (.error err, ss') => (.error err, { hs with ss := ss' })
    | (false, false) => (.error .undefinedState, hs)

/-- A trivial hash instantiation used in concrete evaluations. -/
def hashNil : HashFn := fun _ => []

/-- A concrete handshake state writing message 1 of the WakuPairing pattern, with no
encryption key set yet. -/
def hsC1 : HandshakeState :=
  { s := none, e := none, rs := none, re := none,
    ss := ⟨⟨createEmptyKey, 0⟩, [], []⟩,
    initiator := true, handshakePattern := wakuPairingPattern, msgPatternIdx := 0,
    psk := [] }

/-- C1 fails on the code: on the writing side the source un-pads the transport message
and only then encrypts, while the claim (and spec §4.6) pads and then encrypts.  For the
1-byte transport message `[1]` on the writing side (with no encryption key set, so
`encryptAndHash` passes bytes through), the code returns the empty message where the
claim's version returns the 248-byte padded block. -/
theorem c1_padding_order_bug :
    (HandshakeState.processMessagePatternPayload hashNil encWitness decFailWitness
        hsC1 [1] []).1 = .ok [] ∧
    (HandshakeState.processMessagePatternPayloadSpec hashNil encWitness decFailWitness
        hsC1 [1] []).1 = .ok (1 :: List.replicate 247 247) ∧
    (Except.ok ([] : Bytes) : Except NoiseError Bytes) ≠ .ok (1 :: List.replicate 247 247) := by
  refine ⟨rfl, rfl, fun h => ?_⟩
  exact absurd (Except.ok.inj h) (by decide)

/-! ## MessageNametagBuffer (`payload.ts`) -/

/-- `MessageNametagLength` (payload.ts). -/
def MessageNametagLength : Nat := 16

/-- `MessageNametagBufferSize` (payload.ts). -/
def MessageNametagBufferSize : Nat := 50

/-- `toMessageNametag` (payload.ts): `input.subarray(0, MessageNametagLength)` — the
first 16 bytes; a shorter input is truncated, not zero-padded. -/
def toMessageNametag (input : Bytes) : Bytes := input.take MessageNametagLength

/-- `writeUIntLE(new Uint8Array(8), value, 0, 8)` (utils.ts): the 8-byte little-endian
encoding.  (The JS loop divides an IEEE double, exact for the counter magnitudes the
library can reach.) -/
def writeUIntLE8 (value : Nat) : Bytes :=
  (List.range 8).map fun i => value / 256 ^ i % 256

/-- The message-nametag ring (payload.ts): 50 expected nametags, a counter and an
optional secret. -/
structure MessageNametagBuffer where
  buffer : List Bytes
  counter : Nat
  secret : Option Bytes
  deriving DecidableEq, Repr

/-- The class-constructor state (payload.ts): 50 all-zero 16-byte nametags, counter 0,
no secret. -/
def emptyMessageNametagBuffer : MessageNametagBuffer :=
  ⟨List.replicate MessageNametagBufferSize (List.replicate MessageNametagLength 0), 0, none⟩

/-- The shared loop body of `initNametagsBuffer` and `delete` (payload.ts): the nametag
generated at a counter value is `toMessageNametag(hashSHA256(secret ‖ counter_le8))`. -/
def nametagFromCounter (hash : HashFn) (secret : Bytes) (counter : Nat) : Bytes :=
  toMessageNametag (hash (secret ++ writeUIntLE8 counter))

/-- The generation loop of `initNametagsBuffer` and `delete` (payload.ts): `k` new
nametags at consecutive counter values starting at `counter`. -/
def genNametags (hash : HashFn) (secret : Bytes) (counter : Nat) : Nat → List Bytes
  | 0 => []
  | k + 1 => nametagFromCounter hash secret counter :: genNametags hash secret (counter + 1) k

/-- `MessageNametagBuffer.initNametagsBuffer` (payload.ts): resets the counter and, with
a secret set, fills the 50 slots with the nametags for counters 0..49, leaving the
counter at 50.  (With no secret the JS code leaves the fresh `Array(50)` slots undefined;
modelled as empty byte strings — no claim touches that state.) -/
def MessageNametagBuffer.initNametagsBuffer (hash : HashFn) (mnb : MessageNametagBuffer) :
    MessageNametagBuffer :=
  match mnb.secret with
  | some s =>
    { buffer := genNametags hash s 0 MessageNametagBufferSize,
      counter := MessageNametagBufferSize, secret := some s }
  | none => { buffer := List.replicate MessageNametagBufferSize [], counter := 0, secret := none }

/-- `MessageNametagBuffer.delete` (payload.ts): returns unchanged for `n ≤ 0` or with no
secret; otherwise clamps `n` to 50, rotates the ring left by `n` and regenerates the last
`n` entries at the next `n` counter values. -/
def MessageNametagBuffer.delete (hash : HashFn) (mnb : MessageNametagBuffer) (n : Nat) :
    MessageNametagBuffer :=
  if n = 0 then mnb
  else
    let n' := min n MessageNametagBufferSize
    match mnb.secret with
    | some s =>
      let rotated := mnb.buffer.drop n' ++ mnb.buffer.take n'
      { buffer := rotated.take (rotated.length - n') ++ genNametags hash s mnb.counter n',
        counter := mnb.counter + n', secret := some s }
    | none => mnb

/-- `MessageNametagBuffer.pop` (payload.ts): copies the head nametag, deletes one entry
and returns the copy. -/
def MessageNametagBuffer.pop (hash : HashFn) (mnb : MessageNametagBuffer) :
    Bytes × MessageNametagBuffer :=
  (mnb.buffer.headD [], mnb.delete hash 1)

/-- `MessageNametagBuffer.checkNametag` (payload.ts): true only when the nametag is found
at index 0 of the ring. -/
def MessageNametagBuffer.checkNametag (mnb : MessageNametagBuffer)
    (messageNametag : Bytes) : Bool :=
  match mnb.buffer.findIdx? (fun x => x == messageNametag) with
  | none => false
  | some 0 => true
  | some _ => false

/-! ## Handshake finalization (`src/handshake.ts`) -/

/-- The UTF-8 bytes of the label `"nametag-secrets"`. -/
def nametagSecretsLabel : Bytes :=
  [110, 97, 109, 101, 116, 97, 103, 45, 115, 101, 99, 114, 101, 116, 115]

/-- Modelled from the spec: `HandshakeState.genMessageNametagSecrets` is called by
`finalizeHandshake` (src/handshake.ts line 654) but its body is not among the provided
sources.  Spec §4.7: `[nms1, nms2] = hkdf(ck, "nametag-secrets", 2)`. -/
def HandshakeState.genMessageNametagSecrets (hkdf : HkdfFn) (hs : HandshakeState) :
    Bytes × Bytes :=
  let (nms1, nms2, _) := hkdf hs.ss.ck nametagSecretsLabel
  (nms1, nms2)

/-- `HandshakeResult` (src/handshake.ts): the two post-handshake cipher states, the two
nametag buffers, and the stored `rs` and `h`.  The source writes `this.hs.rs!` into the
result, which is `undefined` when no remote static key was learned; hence `Option`. -/
structure HandshakeResult where
  csOutbound : CipherState
  csInbound : CipherState
  nametagsInbound : MessageNametagBuffer
  nametagsOutbound : MessageNametagBuffer
  rs : Option Bytes
  h : Bytes
  deriving DecidableEq, Repr

/-- `Handshake.finalizeHandshake` (src/handshake.ts, lines 642–680): calls Split, derives
the nametag secrets, assigns cipher states and secrets by role, initializes both nametag
buffers and stores `rs` and `h`.  The source performs no check on `msgPatternIdx`. -/
def Handshake.finalizeHandshake (hash : HashFn) (hkdf : HkdfFn) (hs : HandshakeState) :
    HandshakeResult :=
  let (cs1, cs2) := SymmetricState.split hkdf hs.ss
  let (nms1, nms2) := hs.genMessageNametagSecrets hkdf
  if hs.initiator then
    { csOutbound := cs1, csInbound := cs2,
      nametagsInbound :=
        MessageNametagBuffer.initNametagsBuffer hash
          { emptyMessageNametagBuffer with secret := some nms1 },
      nametagsOutbound :=
        MessageNametagBuffer.initNametagsBuffer hash
          { emptyMessageNametagBuffer with secret := some nms2 },
      rs := hs.rs, h := hs.ss.h }
  else
    { csOutbound := cs2, csInbound := cs1,
      nametagsInbound :=
        MessageNametagBuffer.initNametagsBuffer hash
          { emptyMessageNametagBuffer with secret := some nms2 },
      nametagsOutbound :=
        MessageNametagBuffer.initNametagsBuffer hash
          { emptyMessageNametagBuffer with secret := some nms1 },
      rs := hs.rs, h := hs.ss.h }

/-- The claim's version of `finalizeHandshake`, following the spec's words (§4.7): it
must fail unless `msgPatternIdx` equals the number of message patterns, and only then
perform Split and return a `HandshakeResult`. -/
def Handshake.finalizeHandshakeSpec (hash : HashFn) (hkdf : HkdfFn) (hs : HandshakeState) :
    Except NoiseError HandshakeResult :=
  if hs.msgPatternIdx = hs.handshakePattern.messagePatterns.length then
    .ok (Handshake.finalizeHandshake hash hkdf hs)
  else .error .handshakeNotFinished

/-- A concrete HKDF instantiation used in concrete evaluations. -/
def hkdfC4 : HkdfFn := fun ck ikm => (0 :: ck ++ ikm, 1 :: ck ++ ikm, 2 :: ck ++ ikm)

/-- C4 fails on the code: `finalizeHandshake` performs no `msgPatternIdx` check.  On the
state `hsC1`, which still has all three WakuPairing message patterns to process
(`msgPatternIdx = 0`), the source returns a fully-built `HandshakeResult` whose outbound
cipher state is the first Split output, where the claim requires a failure. -/
theorem c4_counterexample :
    hsC1.msgPatternIdx ≠ hsC1.handshakePattern.messagePatterns.length ∧
    Handshake.finalizeHandshakeSpec hashNil hkdfC4 hsC1 = .error .handshakeNotFinished ∧
    (Handshake.finalizeHandshake hashNil hkdfC4 hsC1).csOutbound
      = (SymmetricState.split hkdfC4 hsC1.ss).1 :=
  ⟨by decide, rfl, rfl⟩

/-- C4 amended: `finalizeHandshake` never fails — for every handshake state, whatever its
`msgPatternIdx`, it performs Split and returns a `HandshakeResult` (the initiator takes
the first Split output as outbound and the second as inbound, the responder the swap),
storing `rs` and the final handshake hash. -/
theorem c4_finalize_unconditional (hash : HashFn) (hkdf : HkdfFn) (hs : HandshakeState) :
    ((Handshake.finalizeHandshake hash hkdf hs).csOutbound,
      (Handshake.finalizeHandshake hash hkdf hs).csInbound)
      = (if hs.initiator then SymmetricState.split hkdf hs.ss
          else ((SymmetricState.split hkdf hs.ss).2, (SymmetricState.split hkdf hs.ss).1)) ∧
    (Handshake.finalizeHandshake hash hkdf hs).h = hs.ss.h ∧
    (Handshake.finalizeHandshake hash hkdf hs).rs = hs.rs := by
  by_cases hinit : hs.initiator <;>
    simp [Handshake.finalizeHandshake, SymmetricState.split, hinit]

/-! ## The read-step nametag gate of `Handshake.stepHandshake` (`src/handshake.ts`) -/

/-- A JS `Uint8Array` object: the identity (reference) of the object together with its
byte contents.  Needed because the reading branch of `stepHandshake`
(src/handshake.ts line 616) compares two `Uint8Array`s with the JS `!=` operator, which
between two objects compares references and never contents. -/
structure JSBytes where
  ref : Nat
  data : Bytes
  deriving DecidableEq, Repr

/-- The JS loose inequality `a != b` between two objects: true iff they are distinct
objects. -/
def jsLooseNeq (a b : JSBytes) : Bool := decide (a.ref ≠ b.ref)

/-- `toMessageNametag` (payload.ts) at the JS object level: `input.subarray(0, 16)`
yields the first 16 bytes of the input viewed through a freshly allocated typed-array
object; `fresh` is the new object's reference, distinct from every pre-existing one. -/
def toMessageNametagJS (fresh : Nat) (input : JSBytes) : JSBytes :=
  ⟨fresh, input.data.take MessageNametagLength⟩

/-- The message-nametag gate of the reading branch of `Handshake.stepHandshake`
(src/handshake.ts lines 614–637): the step throws the nametag error — leaving
`msgPatternIdx` unchanged — exactly when
`readPayloadV2.messageNametag != toMessageNametag(messageNametag)` holds; only otherwise
does the step proceed to process the payload and advance `msgPatternIdx` by one.
`none` models the thrown error, `some` the advanced index. -/
def stepHandshakeReadNametagGate (fresh : Nat) (readPayloadNametag expected : JSBytes)
    (msgPatternIdx : Nat) : Option Nat :=
  if jsLooseNeq readPayloadNametag (toMessageNametagJS fresh expected) then none
  else some (msgPatternIdx + 1)

/-- C2 fails on the code: the source compares the two nametags with the JS `!=` operator,
i.e. by object reference.  `toMessageNametag` returns a freshly allocated subarray
object, so the comparison is true — and the nametag error is raised with `msgPatternIdx`
unadvanced — on every read step, even when the two byte sequences are equal. -/
theorem c2_nametag_reference_compare (fresh : Nat) (readNametag expected : JSBytes)
    (idx : Nat) (hfresh : fresh ≠ readNametag.ref)
    (_hdata : readNametag.data = (toMessageNametagJS fresh expected).data) :
    stepHandshakeReadNametagGate fresh readNametag expected idx = none := by
  simp [stepHandshakeReadNametagGate, jsLooseNeq, toMessageNametagJS]
  exact fun h => hfresh h.symm

/-- Witness for C2: byte-for-byte equal 16-byte nametags (objects 0 and the fresh
subarray object 1) still raise the nametag error. -/
theorem c2_nametag_reference_compare_witness :
    (1 : Nat) ≠ (JSBytes.mk 0 (List.replicate 16 9)).ref ∧
    (JSBytes.mk 0 (List.replicate 16 9)).data
      = (toMessageNametagJS 1 ⟨2, List.replicate 16 9⟩).data ∧
    stepHandshakeReadNametagGate 1 ⟨0, List.replicate 16 9⟩ ⟨2, List.replicate 16 9⟩ 0
      = none :=
  ⟨by decide, by decide,
    c2_nametag_reference_compare 1 ⟨0, List.replicate 16 9⟩ ⟨2, List.replicate 16 9⟩ 0
      (by decide) (by decide)⟩

/-! ## Executable SHA-256, HMAC-SHA256 and HKDF

The repository's `crypto.ts` wrappers `hashSHA256` and `getHKDF` (over
`@stablelib/sha256` and `@stablelib/hkdf`) are not among the provided sources, so the
primitives themselves are defined here: SHA-256 per FIPS 180-4 (which spec §4.1
references as `sha256(data) → 32 bytes`), HMAC per FIPS 198-1, and HKDF exactly as spec
§4.1 fixes it: `PRK = HMAC-SHA256(ck, ikm)` and `T_i = HMAC-SHA256(PRK, T_(i-1) ‖ info ‖ i)`
with empty `info`.  32-bit words are naturals reduced mod `2 ^ 32`. -/

/-- Reduction of a natural to a 32-bit word. -/
def w32 (x : Nat) : Nat := x % 2 ^ 32

/-- Right rotation of a 32-bit word by `n` bits. -/
def rotr32 (n x : Nat) : Nat := w32 (x / 2 ^ n + x % 2 ^ n * 2 ^ (32 - n))

/-- The SHA-256 `Ch` function: `(x AND y) XOR (NOT x AND z)`. -/
def shaCh (x y z : Nat) : Nat := (x &&& y) ^^^ ((2 ^ 32 - 1 - w32 x) &&& z)

/-- The SHA-256 `Maj` function. -/
def shaMaj (x y z : Nat) : Nat := (x &&& y) ^^^ (x &&& z) ^^^ (y &&& z)

/-- The SHA-256 big sigma-0 function. -/
def bigSigma0 (x : Nat) : Nat := rotr32 2 x ^^^ rotr32 13 x ^^^ rotr32 22 x

/-- The SHA-256 big sigma-1 function. -/
def bigSigma1 (x : Nat) : Nat := rotr32 6 x ^^^ rotr32 11 x ^^^ rotr32 25 x

/-- The SHA-256 small sigma-0 function. -/
def smallSigma0 (x : Nat) : Nat := rotr32 7 x ^^^ rotr32 18 x ^^^ x / 2 ^ 3

/-- The SHA-256 small sigma-1 function. -/
def smallSigma1 (x : Nat) : Nat := rotr32 17 x ^^^ rotr32 19 x ^^^ x / 2 ^ 10

/-- The 64 SHA-256 round constants (FIPS 180-4 §4.2.2, written in decimal). -/
def shaK : List Nat :=
  [1116352408, 1899447441, 3049323471, 3921009573, 961987163, 1508970993, 2453635748,
   2870763221, 3624381080, 310598401, 607225278, 1426881987, 1925078388, 2162078206,
   2614888103, 3248222580, 3835390401, 4022224774, 264347078, 604807628, 770255983,
   1249150122, 1555081692, 1996064986, 2554220882, 2821834349, 2952996808, 3210313671,
   3336571891, 3584528711, 113926993, 338241895, 666307205, 773529912, 1294757372,
   1396182291, 1695183700, 1986661051, 2177026350, 2456956037, 2730485921, 2820302411,
   3259730800, 3345764771, 3516065817, 3600352804, 4094571909, 275423344, 430227734,
   506948616, 659060556, 883997877, 958139571, 1322822218, 1537002063, 1747873779,
   1955562222, 2024104815, 2227730452, 2361852424, 2428436474, 2756734187, 3204031479,
   3329325298]

/-- The SHA-256 initial hash value (FIPS 180-4 §5.3.3, written in decimal). -/
def shaH0 : List Nat :=
  [1779033703, 3144134277, 1013904242, 2773480762, 1359893119, 2600822924, 528734635,
   1541459225]

/-- Extends the 16-word message block to the 64-word schedule (`k` remaining words). -/
def sha256Schedule (ws : List Nat) : Nat → List Nat
  | 0 => ws
  | k + 1 =>
    sha256Schedule
      (ws ++ [w32 (smallSigma1 (ws.getD (ws.length - 2) 0) + ws.getD (ws.length - 7) 0 +
        smallSigma0 (ws.getD (ws.length - 15) 0) + ws.getD (ws.length - 16) 0)]) k

/-- One SHA-256 round on the 8-word working state; `kw` is `K[i] + W[i]`. -/
def sha256Round (st : List Nat) (kw : Nat) : List Nat :=
  match st with
  | [a, b, c, d, e, f, g, h] =>
    let t1 := w32 (h + bigSigma1 e + shaCh e f g + kw)
    let t2 := w32 (bigSigma0 a + shaMaj a b c)
    [w32 (t1 + t2), a, b, c, w32 (d + t1), e, f, g]
  | _ => st

/-- The SHA-256 compression function on one 16-word block. -/
def sha256Compress (hv : List Nat) (block : List Nat) : List Nat :=
  let ws := sha256Schedule block 48
  let st := (List.zipWith (fun k w => w32 (k + w)) shaK ws).foldl sha256Round hv
  List.zipWith (fun x y => w32 (x + y)) hv st

/-- Big-endian 32-bit words from bytes. -/
def bytesToWordsBE : Bytes → List Nat
  | a :: b :: c :: d :: rest => (a * 2 ^ 24 + b * 2 ^ 16 + c * 2 ^ 8 + d) :: bytesToWordsBE rest
  | _ => []

/-- Big-endian bytes of a 32-bit word. -/
def wordToBytesBE (v : Nat) : Bytes := [v / 2 ^ 24 % 256, v / 2 ^ 16 % 256, v / 2 ^ 8 % 256, v % 256]

/-- Big-endian 8-byte encoding of a natural. -/
def be8 (v : Nat) : Bytes := (List.range 8).map fun i => v / 2 ^ (8 * (7 - i)) % 256

/-- SHA-256 message padding: `0x80`, zero bytes to 56 mod 64, and the 64-bit bit count. -/
def sha256Pad (msg : Bytes) : Bytes :=
  msg ++ 128 :: List.replicate ((119 - msg.length % 64) % 64) 0 ++ be8 (msg.length * 8)

/-- Iterates the compression function over consecutive 64-byte blocks (fuel-driven so
that the definition reduces inside the kernel). -/
def sha256BlocksGo : Nat → List Nat → Bytes → List Nat
  | 0, hv, _ => hv
  | _ + 1, hv, [] => hv
  | fuel + 1, hv, bs => sha256BlocksGo fuel (sha256Compress hv (bytesToWordsBE (bs.take 64))) (bs.drop 64)

/-- SHA-256 of a byte sequence (the `hashSHA256` primitive). -/
def sha256 (msg : Bytes) : Bytes :=
  let padded := sha256Pad msg
  ((sha256BlocksGo (padded.length / 64) shaH0 padded).map wordToBytesBE).flatten

/-- HMAC-SHA256 (FIPS 198-1) with block size 64. -/
def hmacSHA256 (key msg : Bytes) : Bytes :=
  let k0 := if 64 < key.length then sha256 key else key
  let kp := k0 ++ List.replicate (64 - k0.length) 0
  sha256 ((kp.map (fun b => b ^^^ 92)) ++ sha256 ((kp.map (fun b => b ^^^ 54)) ++ msg))

/-- Modelled from the spec: `getHKDF` (crypto.ts, not among the provided sources) per
spec §4.1 — `PRK = HMAC-SHA256(ck, ikm)`, `T_i = HMAC-SHA256(PRK, T_(i-1) ‖ info ‖ i)`
with empty `info`; call sites destructure up to three 32-byte outputs. -/
def getHKDF (ck ikm : Bytes) : Bytes × Bytes × Bytes :=
  let prk := hmacSHA256 ck ikm
  let t1 := hmacSHA256 prk [1]
  let t2 := hmacSHA256 prk (t1 ++ [2])
  let t3 := hmacSHA256 prk (t2 ++ [3])
  (t1, t2, t3)

/-- The derivation claimed by C3, following the spec's words: HKDF-SHA256 keyed with the
secret, applied to the 8-byte little-endian counter, truncated to 16 bytes. -/
def hkdfNametag (secret : Bytes) (counter : Nat) : Bytes :=
  (getHKDF secret (writeUIntLE8 counter)).1.take MessageNametagLength

/-! ## C3: what the nametag buffer actually derives -/

/-- One pop or delete operation on a nametag buffer. -/
inductive BufferOp where
  | pop
  | del (n : Nat)
  deriving DecidableEq, Repr

/-- Applies one buffer operation. -/
def applyBufferOp (hash : HashFn) (mnb : MessageNametagBuffer) : BufferOp → MessageNametagBuffer
  | .pop => (mnb.pop hash).2
  | .del n => mnb.delete hash n

/-- Applies a sequence of buffer operations. -/
def applyBufferOps (hash : HashFn) (mnb : MessageNametagBuffer) (ops : List BufferOp) :
    MessageNametagBuffer :=
  ops.foldl (applyBufferOp hash) mnb

/-- The buffer invariant: the secret is set, at least 50 counter values have been
consumed, and the ring holds exactly the nametags of the last 50 counter values. -/
def bufferInv (hash : HashFn) (s : Bytes) (mnb : MessageNametagBuffer) : Prop :=
  mnb.secret = some s ∧ MessageNametagBufferSize ≤ mnb.counter ∧
    mnb.buffer = genNametags hash s (mnb.counter - MessageNametagBufferSize) MessageNametagBufferSize

theorem genNametags_length (h : HashFn) (s : Bytes) (c k : Nat) :
    (genNametags h s c k).length = k := by
  induction k generalizing c with
  | zero => rfl
  | succ k ih => simp [genNametags, ih]

theorem genNametags_add (h : HashFn) (s : Bytes) (c k1 k2 : Nat) :
    genNametags h s c (k1 + k2) = genNametags h s c k1 ++ genNametags h s (c + k1) k2 := by
  induction k1 generalizing c with
  | zero => simp [genNametags]
  | succ k1 ih =>
    have h1 : k1 + 1 + k2 = (k1 + k2) + 1 := by omega
    have h2 : c + 1 + k1 = c + (k1 + 1) := by omega
    rw [h1]
    simp only [genNametags, ih (c + 1), List.cons_append, h2]

theorem genNametags_getD (h : HashFn) (s : Bytes) (c k i : Nat) (hik : i < k) :
    (genNametags h s c k).getD i [] = nametagFromCounter h s (c + i) := by
  induction k generalizing c i with
  | zero => omega
  | succ k ih =>
    cases i with
    | zero => simp [genNametags]
    | succ i =>
      have := ih (c + 1) i (by omega)
      simpa [genNametags, Nat.add_assoc, Nat.add_comm 1 i] using this

/-- `delete` preserves the buffer invariant. -/
theorem delete_bufferInv (h : HashFn) (s : Bytes) (mnb : MessageNametagBuffer) (n : Nat)
    (hinv : bufferInv h s mnb) : bufferInv h s (mnb.delete h n) := by
  obtain ⟨hsec, hc, hbuf⟩ := hinv
  unfold MessageNametagBuffer.delete
  by_cases hn : n = 0
  · simpa [hn] using ⟨hsec, hc, hbuf⟩
  simp only [hn, if_false, hsec]
  set n' := min n MessageNametagBufferSize with hn'
  have hn1 : 1 ≤ n' := by
    simp [hn', MessageNametagBufferSize]
    omega
  have hn50 : n' ≤ MessageNametagBufferSize := Nat.min_le_right _ _
  set c := mnb.counter with hcdef
  -- the ring is the window of the last 50 counter values
  have hsplit : mnb.buffer
      = genNametags h s (c - MessageNametagBufferSize) n' ++
        genNametags h s (c - MessageNametagBufferSize + n') (MessageNametagBufferSize - n') := by
    rw [hbuf, ← genNametags_add]
    congr 1
    omega
  have hlen1 : (genNametags h s (c - MessageNametagBufferSize) n').length = n' :=
    genNametags_length ..
  have hlen2 : (genNametags h s (c - MessageNametagBufferSize + n')
      (MessageNametagBufferSize - n')).length = MessageNametagBufferSize - n' :=
    genNametags_length ..
  have hdrop : mnb.buffer.drop n'
      = genNametags h s (c - MessageNametagBufferSize + n') (MessageNametagBufferSize - n') := by
    rw [hsplit, List.drop_append_of_le_length (by omega), List.drop_of_length_le (by omega)]
    simp [hlen1]
  have htake : mnb.buffer.take n' = genNametags h s (c - MessageNametagBufferSize) n' := by
    rw [hsplit, List.take_append_of_le_length (by omega), List.take_of_length_le (by omega)]
  have hbuflen : mnb.buffer.length = MessageNametagBufferSize := by
    rw [hbuf, genNametags_length]
  refine ⟨rfl, ?_, ?_⟩
  · show MessageNametagBufferSize ≤ mnb.counter + n'
    omega
  · show ((mnb.buffer.drop n' ++ mnb.buffer.take n').take
        ((mnb.buffer.drop n' ++ mnb.buffer.take n').length - n') ++
        genNametags h s mnb.counter n')
      = genNametags h s (mnb.counter + n' - MessageNametagBufferSize) MessageNametagBufferSize
    rw [hdrop, htake]
    have hlenrot : (genNametags h s (c - MessageNametagBufferSize + n')
          (MessageNametagBufferSize - n') ++
          genNametags h s (c - MessageNametagBufferSize) n').length - n'
        = MessageNametagBufferSize - n' := by
      simp [hlen1, hlen2]
    rw [hlenrot, List.take_append_of_le_length (Nat.le_of_eq hlen2.symm),
      List.take_of_length_le (Nat.le_of_eq hlen2)]
    have hc50 : c + n' - MessageNametagBufferSize = c - MessageNametagBufferSize + n' := by
      omega
    rw [hc50]
    have key := genNametags_add h s (c - MessageNametagBufferSize + n')
      (MessageNametagBufferSize - n') n'
    have hsum : MessageNametagBufferSize - n' + n' = MessageNametagBufferSize := by omega
    have hstart : c - MessageNametagBufferSize + n' + (MessageNametagBufferSize - n') = c := by
      omega
    rw [hsum, hstart] at key
    exact key.symm

/-- Every operation preserves the buffer invariant. -/
theorem applyBufferOp_bufferInv (h : HashFn) (s : Bytes) (mnb : MessageNametagBuffer)
    (op : BufferOp) (hinv : bufferInv h s mnb) : bufferInv h s (applyBufferOp h mnb op) := by
  cases op with
  | pop => exact delete_bufferInv h s mnb 1 hinv
  | del n => exact delete_bufferInv h s mnb n hinv

theorem applyBufferOps_bufferInv (h : HashFn) (s : Bytes) (mnb : MessageNametagBuffer)
    (ops : List BufferOp) (hinv : bufferInv h s mnb) :
    bufferInv h s (applyBufferOps h mnb ops) := by
  induction ops generalizing mnb with
  | nil => exact hinv
  | cons op ops ih => exact ih _ (applyBufferOp_bufferInv h s mnb op hinv)

theorem initNametagsBuffer_bufferInv (h : HashFn) (s : Bytes) :
    bufferInv h s (MessageNametagBuffer.initNametagsBuffer h
      { emptyMessageNametagBuffer with secret := some s }) := by
  refine ⟨rfl, le_refl _, ?_⟩
  simp [MessageNametagBuffer.initNametagsBuffer, emptyMessageNametagBuffer]

/-- C3 amended: with a 32-byte secret set, after `initNametagsBuffer` and any sequence of
pop/delete operations, the nametag held for counter value `k` (slot `i` holds counter
`counter - 50 + i`, and `pop` returns the one for `counter - 50`) equals
`SHA-256(secret ‖ k_le8)` truncated to 16 bytes. -/
theorem c3_nametag_derivation (s : Bytes) (ops : List BufferOp) (_hlen : s.length = 32) :
    (applyBufferOps sha256 (MessageNametagBuffer.initNametagsBuffer sha256
        { emptyMessageNametagBuffer with secret := some s }) ops).secret = some s ∧
    MessageNametagBufferSize ≤ (applyBufferOps sha256
      (MessageNametagBuffer.initNametagsBuffer sha256
        { emptyMessageNametagBuffer with secret := some s }) ops).counter ∧
    (∀ i < MessageNametagBufferSize,
      (applyBufferOps sha256 (MessageNametagBuffer.initNametagsBuffer sha256
          { emptyMessageNametagBuffer with secret := some s }) ops).buffer.getD i []
        = toMessageNametag (sha256 (s ++ writeUIntLE8
            ((applyBufferOps sha256 (MessageNametagBuffer.initNametagsBuffer sha256
              { emptyMessageNametagBuffer with secret := some s }) ops).counter
              - MessageNametagBufferSize + i)))) ∧
    ((applyBufferOps sha256 (MessageNametagBuffer.initNametagsBuffer sha256
        { emptyMessageNametagBuffer with secret := some s }) ops).pop sha256).1
      = toMessageNametag (sha256 (s ++ writeUIntLE8
          ((applyBufferOps sha256 (MessageNametagBuffer.initNametagsBuffer sha256
            { emptyMessageNametagBuffer with secret := some s }) ops).counter
            - MessageNametagBufferSize))) := by
  have hinv := applyBufferOps_bufferInv sha256 s _ ops
    (initNametagsBuffer_bufferInv sha256 s)
  obtain ⟨hsec, hc, hbuf⟩ := hinv
  refine ⟨hsec, hc, ?_, ?_⟩
  · intro i hi
    rw [hbuf, genNametags_getD _ _ _ _ _ hi]
    rfl
  · show (applyBufferOps sha256 _ ops).buffer.headD [] = _
    have hgd : ∀ l : List Bytes, l.headD [] = l.getD 0 [] := by
      intro l; cases l <;> rfl
    rw [hgd, hbuf, genNametags_getD sha256 s _ _ 0 (by simp [MessageNametagBufferSize])]
    simp [nametagFromCounter]

/-- The buffer reached from the all-zero 32-byte secret by `initNametagsBuffer`,
`delete 3` and one `pop`; used by the C3 witness. -/
def c3WitnessBuffer : MessageNametagBuffer :=
  applyBufferOps sha256
    (MessageNametagBuffer.initNametagsBuffer sha256
      { emptyMessageNametagBuffer with secret := some (List.replicate 32 0) })
    [BufferOp.del 3, BufferOp.pop]

/-- Witness for the amended C3 at the all-zero 32-byte secret and a concrete
delete-then-pop history. -/
theorem c3_nametag_derivation_witness :
    (List.replicate 32 0 : Bytes).length = 32 ∧
    (c3WitnessBuffer.secret = some (List.replicate 32 0) ∧
     MessageNametagBufferSize ≤ c3WitnessBuffer.counter ∧
     (∀ i < MessageNametagBufferSize,
       c3WitnessBuffer.buffer.getD i []
         = toMessageNametag (sha256 (List.replicate 32 0 ++
             writeUIntLE8 (c3WitnessBuffer.counter - MessageNametagBufferSize + i)))) ∧
     (c3WitnessBuffer.pop sha256).1
       = toMessageNametag (sha256 (List.replicate 32 0 ++
           writeUIntLE8 (c3WitnessBuffer.counter - MessageNametagBufferSize)))) :=
  ⟨by decide,
    c3_nametag_derivation (List.replicate 32 0) [BufferOp.del 3, BufferOp.pop] (by decide)⟩

set_option maxRecDepth 100000 in
/-- C3 fails as stated: the buffer derives nametags with a plain SHA-256 of
`secret ‖ counter_le8`, not with HKDF-SHA256.  At the all-zero 32-byte secret and
counter 0, the first nametag after `initNametagsBuffer` differs from the claimed HKDF
derivation. -/
theorem c3_counterexample :
    (MessageNametagBuffer.initNametagsBuffer sha256
        { emptyMessageNametagBuffer with secret := some (List.replicate 32 0) }).buffer.headD []
      = nametagFromCounter sha256 (List.replicate 32 0) 0 ∧
    nametagFromCounter sha256 (List.replicate 32 0) 0 ≠ hkdfNametag (List.replicate 32 0) 0 := by
  constructor
  · rfl
  · decide

/-! ## PayloadV2 wire format (`payload.ts`, `utils.ts`) -/

/-- `Curve25519KeySize` (crypto.ts). -/
def Curve25519KeySize : Nat := 32

/-- `ChachaPolyTagLen` (crypto.ts). -/
def ChachaPolyTagLen : Nat := 16

/-- `PayloadV2` (payload.ts): message nametag, protocol ID, handshake public keys and
transport message. -/
structure PayloadV2 where
  messageNametag : Bytes
  protocolId : Nat
  handshakeMessage : List NoisePublicKey
  transportMessage : Bytes
  deriving DecidableEq, Repr

/-- The public-key loop of `PayloadV2.serialize` (payload.ts): accumulates the serialized
keys and their total length, failing as soon as the total exceeds 255 bytes. -/
def serializeHandshakeKeys : List NoisePublicKey → Nat → Bytes →
    Except NoiseError (Nat × Bytes)
  | [], len, acc => .ok (len, acc)
  | pk :: rest, len, acc =>
    let serializedPk := pk.serialize
    let len' := len + serializedPk.length
    if len' > 255 then .error .handshakeTooLarge
    else serializeHandshakeKeys rest len' (acc ++ serializedPk)

/-- `PayloadV2.serialize` (payload.ts): emits `messageNametag ‖ protocolId ‖ keysLen ‖
keys ‖ transportMessageLen_le8 ‖ transportMessage`; the two one-byte fields go through
the JS `Uint8Array` cast, i.e. mod 256. -/
def PayloadV2.serialize (p : PayloadV2) : Except NoiseError Bytes :=
  match serializeHandshakeKeys p.handshakeMessage 0 [] with
  | .error e => .error e
  | .ok (len, keys) =>
    .ok (p.messageNametag ++ [p.protocolId % 256] ++ [len % 256] ++ keys ++
      writeUIntLE8 p.transportMessage.length ++ p.transportMessage)

/-- `readUIntLE` (utils.ts): `checkOffset` throws a `RangeError` when
`offset + byteLength` exceeds the buffer length; otherwise `byteLength` bytes are
assembled little-endian.  (For `byteLength ≥ 8` the JS accumulation is IEEE-double
arithmetic and can round; the claims below evaluate this function only where the
`RangeError` branch is taken, which is exact.) -/
def readUIntLE (buf : Bytes) (offset byteLength : Nat) : Except NoiseError Nat :=
  if offset + byteLength > buf.length then .error .rangeError
  else .ok (((List.range byteLength).map fun j => buf.getD (offset + j) 0 * 256 ^ j).sum)

/-- The public-key loop of `PayloadV2.deserialize` (payload.ts): reads serialized keys
until exactly `len` bytes have been consumed.  `fuel` bounds the iteration, which in JS
terminates because every step either consumes at least 33 bytes of the finite payload or
throws on the out-of-range (`undefined`) flag read; `payload.length + 1` units of fuel
are therefore enough to reach either exit. -/
def readHandshakeKeys (payload : Bytes) : Nat → Nat → Nat → Nat → List NoisePublicKey →
    Except NoiseError (List NoisePublicKey × Nat)
  | 0, _, _, _, _ => .error .invalidKeyFlag
  | fuel + 1, i, written, len, acc =>
    if written = len then .ok (acc, i)
    else
      match payload.get? i with
      | none => .error .invalidKeyFlag
      | some 0 =>
        let pkLen := 1 + Curve25519KeySize
        match NoisePublicKey.deserialize ((payload.drop i).take pkLen) with
        | .error e => .error e
        | .ok pk => readHandshakeKeys payload fuel (i + pkLen) (written + pkLen) len (acc ++ [pk])
      | some 1 =>
        let pkLen := 1 + Curve25519KeySize + ChachaPolyTagLen
        match NoisePublicKey.deserialize ((payload.drop i).take pkLen) with
        | .error e => .error e
        | .ok pk => readHandshakeKeys payload fuel (i + pkLen) (written + pkLen) len (acc ++ [pk])
      | some _ => .error .invalidKeyFlag

/-- `PayloadV2.deserialize` (payload.ts).  The nametag bytes are copied into a fresh
array (out-of-range JS reads coerce to 0); an out-of-range protocol-ID read is
`undefined`, which is not among the protocol IDs; an out-of-range handshake-length read
makes the JS key loop throw on its `undefined` flag.  The transport-message length is
read — as in the source — with `readUIntLE(payload, i, i + 8 - 1)`, i.e. with
`byteLength = i + 7` where the 8-byte wire field sits at offset `i`. -/
def PayloadV2.deserialize (payload : Bytes) : Except NoiseError PayloadV2 :=
  let messageNametag := (List.range MessageNametagLength).map fun j => payload.getD j 0
  match payload.get? MessageNametagLength with
  | none => .error .protocolIdNotFound
  | some protocolId =>
    if (PayloadV2ProtocolIDs.map Prod.snd).contains protocolId then
      match payload.get? (MessageNametagLength + 1) with
      | none => .error .invalidKeyFlag
      | some handshakeMessageLen =>
        if handshakeMessageLen > 255 then .error .handshakeTooLarge
        else
          match readHandshakeKeys payload (payload.length + 1) (MessageNametagLength + 2)
              0 handshakeMessageLen [] with
          | .error e => .error e
          | .ok (handshakeMessage, i) =>
            match readUIntLE payload i (i + 8 - 1) with
            | .error e => .error e
            | .ok transportMessageLen =>
              .ok { messageNametag := messageNametag, protocolId := protocolId,
                    handshakeMessage := handshakeMessage,
                    transportMessage := (payload.drop (i + 8)).take transportMessageLen }
    else .error .protocolIdNotFound

/-- The valid empty payload: all-zero 16-byte nametag, protocol ID 0, no handshake keys,
empty transport message. -/
def p0C7 : PayloadV2 := ⟨List.replicate 16 0, 0, [], []⟩

/-- C7 fails on the code: `deserialize` passes `i + 8 - 1` as the `byteLength` argument
of `readUIntLE` (not 8), so on the 26-byte serialization of the valid empty payload the
`checkOffset` bound `18 + 25 > 26` trips and deserialization throws a `RangeError`
instead of returning the payload. -/
theorem c7_roundtrip_range_error :
    PayloadV2.serialize p0C7 = .ok (List.replicate 26 0) ∧
    PayloadV2.deserialize (List.replicate 26 0) = .error .rangeError := by
  exact ⟨rfl, rfl⟩

/-! ## QR serialization (`src/qr.ts`)

`QR.toString` / `QR.from` encode each field with the `uint8arrays` codec
`"base64urlpad"` (URL-safe base64 alphabet with `'='` padding) and join/split on `':'`.
The codec itself is external library code, defined here by the standard RFC 4648 §5
encoding on byte lists; JS strings are modelled by their UTF-8 bytes. -/

/-- The URL-safe base64 alphabet: the character code of a 6-bit value. -/
def b64charOf (v : Nat) : Nat :=
  if v < 26 then 65 + v
  else if v < 52 then 97 + (v - 26)
  else if v < 62 then 48 + (v - 52)
  else if v = 62 then 45
  else 95

/-- The inverse of the URL-safe base64 alphabet. -/
def b64valOf (c : Nat) : Option Nat :=
  if 65 ≤ c ∧ c ≤ 90 then some (c - 65)
  else if 97 ≤ c ∧ c ≤ 122 then some (c - 97 + 26)
  else if 48 ≤ c ∧ c ≤ 57 then some (c - 48 + 52)
  else if c = 45 then some 62
  else if c = 95 then some 63
  else none

/-- `base64urlpad` encoding of a byte list: 3-byte groups become 4 characters, a 2-byte
tail becomes 3 characters and `'='` (code 61), a 1-byte tail 2 characters and `"=="`. -/
def b64encode : List Nat → List Nat
  | [] => []
  | [a] => [b64charOf (a / 4), b64charOf (a % 4 * 16), 61, 61]
  | [a, b] => [b64charOf (a / 4), b64charOf (a % 4 * 16 + b / 16), b64charOf (b % 16 * 4), 61]
  | a :: b :: c :: rest =>
    b64charOf (a / 4) :: b64charOf (a % 4 * 16 + b / 16) ::
      b64charOf (b % 16 * 4 + c / 64) :: b64charOf (c % 64) :: b64encode rest

/-- `base64urlpad` decoding: `none` on any input that is not a padded encoding. -/
def b64decode : List Nat → Option (List Nat)
  | [] => some []
  | w :: x :: y :: z :: rest =>
    match b64valOf w, b64valOf x with
    | some vw, some vx =>
      if y = 61 then
        if z = 61 ∧ rest = [] then some [vw * 4 + vx / 16] else none
      else
        match b64valOf y with
        | some vy =>
          if z = 61 then
            if rest = [] then some [vw * 4 + vx / 16, vx % 16 * 16 + vy / 4] else none
          else
            match b64valOf z, b64decode rest with
            | some vz, some tail =>
              some ((vw * 4 + vx / 16) :: (vx % 16 * 16 + vy / 4) :: (vy % 4 * 64 + vz) :: tail)
            | _, _ => none
        | none => none
    | _, _ => none
  | _ => none

theorem b64valOf_b64charOf : ∀ v < 64, b64valOf (b64charOf v) = some v := by decide

theorem b64charOf_ne_61 (v : Nat) : b64charOf v ≠ 61 := by
  unfold b64charOf
  split <;> [omega; skip]
  split <;> [omega; skip]
  split <;> [omega; skip]
  split <;> omega

theorem b64charOf_ne_58 (v : Nat) : b64charOf v ≠ 58 := by
  unfold b64charOf
  split <;> [omega; skip]
  split <;> [omega; skip]
  split <;> [omega; skip]
  split <;> omega

/-- Decoding inverts encoding on byte lists. -/
theorem b64decode_b64encode (l : List Nat) (h : ∀ b ∈ l, b < 256) :
    b64decode (b64encode l) = some l := by
  match l with
  | [] => rfl
  | [a] =>
    have ha : a < 256 := h a (by simp)
    rw [b64encode, b64decode, b64valOf_b64charOf _ (by omega),
      b64valOf_b64charOf _ (by omega)]
    simp
    omega
  | [a, b] =>
    have ha : a < 256 := h a (by simp)
    have hb : b < 256 := h b (by simp)
    rw [b64encode, b64decode]
    rw [b64valOf_b64charOf _ (by omega), b64valOf_b64charOf _ (by omega)]
    simp [b64charOf_ne_61, b64valOf_b64charOf _ (show b % 16 * 4 < 64 by omega)]
    omega
  | a :: b :: c :: rest =>
    have ha : a < 256 := h a (by simp)
    have hb : b < 256 := h b (by simp)
    have hc : c < 256 := h c (by simp)
    have ih := b64decode_b64encode rest (fun x hx => h x (by simp [hx]))
    rw [b64encode]
    show b64decode (_ :: _ :: _ :: _ :: b64encode rest) = _
    rw [b64decode]
    rw [b64valOf_b64charOf _ (by omega), b64valOf_b64charOf _ (by omega)]
    simp [b64charOf_ne_61, b64valOf_b64charOf _ (show b % 16 * 4 + c / 64 < 64 by omega),
      b64valOf_b64charOf _ (show c % 64 < 64 by omega), ih]
    refine ⟨by omega, by omega, by omega⟩

/-- Encoded output never contains the separator `':'` (code 58). -/
theorem b64encode_no_colon (l : List Nat) : 58 ∉ b64encode l := by
  match l with
  | [] => simp [b64encode]
  | [a] =>
    simp [b64encode]
    exact ⟨(b64charOf_ne_58 _).symm, (b64charOf_ne_58 _).symm⟩
  | [a, b] =>
    simp [b64encode]
    exact ⟨(b64charOf_ne_58 _).symm, (b64charOf_ne_58 _).symm, (b64charOf_ne_58 _).symm⟩
  | a :: b :: c :: rest =>
    have ih := b64encode_no_colon rest
    simp [b64encode]
    exact ⟨(b64charOf_ne_58 _).symm, (b64charOf_ne_58 _).symm, (b64charOf_ne_58 _).symm,
      (b64charOf_ne_58 _).symm, ih⟩

/-- JS `String.split(':')` on byte lists: every separator splits, empty parts kept. -/
def splitOnColon : Bytes → List Bytes
  | [] => [[]]
  | c :: rest =>
    if c = 58 then [] :: splitOnColon rest
    else
      match splitOnColon rest with
      | s :: ss => (c :: s) :: ss
      | [] => [[c]]

theorem splitOnColon_sep (a rest : Bytes) (ha : 58 ∉ a) :
    splitOnColon (a ++ 58 :: rest) = a :: splitOnColon rest := by
  match a with
  | [] => simp [splitOnColon]
  | c :: a' =>
    have hc : c ≠ 58 := by intro hcp; exact ha (by simp [hcp])
    have ih := splitOnColon_sep a' rest (fun hx => ha (by simp [hx]))
    simp [splitOnColon, hc, ih]

theorem splitOnColon_nosep (a : Bytes) (ha : 58 ∉ a) : splitOnColon a = [a] := by
  match a with
  | [] => rfl
  | c :: a' =>
    have hc : c ≠ 58 := by intro hcp; exact ha (by simp [hcp])
    have ih := splitOnColon_nosep a' (fun hx => ha (by simp [hx]))
    simp [splitOnColon, hc, ih]

/-- The QR object (src/qr.ts): application name, version, shard id and the two 32-byte
keys; the string fields are modelled by their UTF-8 bytes. -/
structure QR where
  applicationName : Bytes
  applicationVersion : Bytes
  shardId : Bytes
  ephemeralKey : Bytes
  committedStaticKey : Bytes
  deriving DecidableEq, Repr

/-- `QR.toString` (src/qr.ts): the five fields base64urlpad-encoded, joined by `':'`. -/
def QR.toString (q : QR) : Bytes :=
  b64encode q.applicationName ++ 58 ::
    (b64encode q.applicationVersion ++ 58 ::
      (b64encode q.shardId ++ 58 ::
        (b64encode q.ephemeralKey ++ 58 :: b64encode q.committedStaticKey)))

/-- `QR.from` (src/qr.ts; `from` is a Lean keyword, hence `fromInput`): split on `':'`,
require exactly five fields, base64urlpad-decode each; any decode failure throws. -/
def QR.fromInput (input : Bytes) : Except NoiseError QR :=
  match splitOnColon input with
  | [v0, v1, v2, v3, v4] =>
    match b64decode v0, b64decode v1, b64decode v2, b64decode v3, b64decode v4 with
    | some n, some ver, some sh, some ek, some ck => .ok ⟨n, ver, sh, ek, ck⟩
    | _, _, _, _, _ => .error .invalidQrString
  | _ => .error .invalidQrString

/-- C8: for every QR object — arbitrary byte-valued name, version and shard id and
32-byte keys — `QR.from (q.toString())` returns a QR whose five fields equal `q`'s. -/
theorem c8_qr_roundtrip (q : QR)
    (h1 : ∀ b ∈ q.applicationName, b < 256) (h2 : ∀ b ∈ q.applicationVersion, b < 256)
    (h3 : ∀ b ∈ q.shardId, b < 256) (h4 : ∀ b ∈ q.ephemeralKey, b < 256)
    (h5 : ∀ b ∈ q.committedStaticKey, b < 256)
    (_hek : q.ephemeralKey.length = 32) (_hck : q.committedStaticKey.length = 32) :
    QR.fromInput q.toString = .ok q := by
  unfold QR.toString QR.fromInput
  rw [splitOnColon_sep _ _ (b64encode_no_colon _),
    splitOnColon_sep _ _ (b64encode_no_colon _),
    splitOnColon_sep _ _ (b64encode_no_colon _),
    splitOnColon_sep _ _ (b64encode_no_colon _),
    splitOnColon_nosep _ (b64encode_no_colon _)]
  simp only [b64decode_b64encode _ h1, b64decode_b64encode _ h2, b64decode_b64encode _ h3,
    b64decode_b64encode _ h4, b64decode_b64encode _ h5]

/-- Witness for C8 at a concrete QR object ("hi", "1", "A", two 32-byte keys). -/
theorem c8_qr_roundtrip_witness :
    (∀ b ∈ [104, 105], b < 256) ∧ (∀ b ∈ [49], b < 256) ∧ (∀ b ∈ [65], b < 256) ∧
    (∀ b ∈ List.replicate 32 7, b < 256) ∧ (∀ b ∈ List.replicate 32 8, b < 256) ∧
    (List.replicate 32 7).length = 32 ∧ (List.replicate 32 8).length = 32 ∧
    QR.fromInput (QR.toString
        ⟨[104, 105], [49], [65], List.replicate 32 7, List.replicate 32 8⟩)
      = .ok ⟨[104, 105], [49], [65], List.replicate 32 7, List.replicate 32 8⟩ :=
  ⟨by decide, by decide, by decide, by decide, by decide, by decide, by decide,
    c8_qr_roundtrip ⟨[104, 105], [49], [65], List.replicate 32 7, List.replicate 32 8⟩
      (by decide) (by decide) (by decide) (by decide) (by decide) (by decide) (by decide)⟩

end JsNoise
